import Mathlib

/-!
Verification development for the fzf-widgets shell integration
(`xontrib/fzf_widgets.py`). The Python module is shallowly embedded:
pure fragments become Lean functions, the ambient process state
(environment variables, filesystem queries, captured subprocess output)
becomes an explicit `World` record of inputs, and the observable
side effects of one widget invocation become an explicit `Effect` trace.
-/

namespace FzfWidgets

/-- Buffer models `event.current_buffer` of the line editor: its text and
the cursor position (in characters). -/
structure Buffer where
  text : String
  cursor_position : Nat
  deriving DecidableEq

/-- Effect is one observable side effect of a widget invocation, in program
order: writes to the child's stdin, closing stdin, waiting for the child,
erasing the renderer, direct buffer mutations, directory changes, and
process spawns (`popen` for the streaming pipeline, `runProc` for the
blocking `subprocess.run` call which also waits for the child). -/
inductive Effect where
  | stdinWrite (s : String)
  | stdinClose
  | wait
  | rendererErase
  | setText (s : String)
  | setCursor (n : Nat)
  | chdir (d : String)
  | deleteBeforeCursor (n : Nat)
  | insertText (s : String)
  | popen (args : List String)
  | runProc (args : List String) (env : List (String × String))
  deriving DecidableEq

/-- envContains models Python's `key in mapping`. -/
def envContains : List (String × String) → String → Bool
  | [], _ => false
  | p :: rest, k => p.1 == k || envContains rest k

/-- envGet models `mapping.get(key)`: the first binding of the key. -/
def envGet : List (String × String) → String → Option String
  | [], _ => Option.none
  | p :: rest, k => if p.1 == k then Option.some p.2 else envGet rest k

/-- envGetD models `mapping[key]` after an `in` check (default never hit). -/
def envGetD (env : List (String × String)) (k : String) : String :=
  (envGet env k).getD ""

/-- envSet models dict item assignment `mapping[key] = value`: replace the
binding of an existing key in place, or append a new one at the end. -/
def envSet : List (String × String) → String → String → List (String × String)
  | [], k, v => [(k, v)]
  | p :: rest, k, v =>
      if p.1 == k then (k, v) :: envSet rest k v else p :: envSet rest k v

/-- World gathers every ambient input one widget invocation reads:
`XSH.env`, `os.environ`, the captured stdout of `subproc_captured_stdout`
(field `run`, used for the `which` lookups), the line before the cursor,
the path-completion oracle, `os.path` helpers, the current directory, the
captured stdout of the fzf child, and the current edit buffer. -/
structure World where
  xshEnv : List (String × String)
  osEnviron : List (String × String)
  run : List String → String
  before_cursor : String
  complete_path : String → List String
  normpath : String → String
  expanduser : String → String
  isdir : String → Bool
  getcwd : String
  fzfStdout : String
  buffer : Buffer

/-- pyIsSpace is Python's `str` whitespace test for ASCII text: the six
characters `str.strip()` removes. -/
def pyIsSpace (c : Char) : Bool :=
  c == ' ' || c == '\t' || c == '\n' || c == '\r' || c == '\x0b' || c == '\x0c'

/-- pyStrip models Python's `str.strip()`: remove leading and trailing
whitespace. -/
def pyStrip (s : String) : String :=
  String.mk (((s.toList.dropWhile pyIsSpace).reverse.dropWhile pyIsSpace).reverse)

/-- get_fzf_binary_name embeds the source verbatim: note that the source
passes the literal string `"fzf_tmux_cmd"` to `which`, not the value of
the variable `fzf_tmux_cmd`. -/
def get_fzf_binary_name (w : World) : String :=
  let fzf_tmux_cmd := "fzf-tmux"
  if envContains w.xshEnv "TMUX" && w.run ["which", "fzf_tmux_cmd"] != "" then
    fzf_tmux_cmd
  else
    "fzf"

/-- fzfNotFoundMsg is the message of the exception raised by
`get_fzf_binary_path` when `which` produces no output. -/
def fzfNotFoundMsg : String :=
  "Could not determine path of fzf using `which`; maybe it is not installed or not on PATH?"

/-- get_fzf_binary_path resolves the binary name via `which`; an empty
(falsy) captured output raises, modelled as `Except.error`. -/
def get_fzf_binary_path (w : World) : Except String String :=
  let path := w.run ["which", get_fzf_binary_name w]
  if path = "" then Except.error fzfNotFoundMsg else Except.ok path

/-- fzfBaseArgs is the fixed argument list of the streaming-mode `Popen`
call in `get_fzf_proc`. -/
def fzfBaseArgs (bin : String) : List String :=
  [bin, "--read0", "--tac", "--tiebreak=index", "+m", "--reverse",
   "--height=40%", "--bind=ctrl-r:toggle-sort"]

/-- get_fzf_proc_args embeds the argument construction of `get_fzf_proc`:
when the buffer text is non-empty the single extra argument
`"-q ^" + text` is appended. -/
def get_fzf_proc_args (w : World) (buf : Buffer) : Except String (List String) :=
  match get_fzf_binary_path w with
  | Except.error e => Except.error e
  | Except.ok bin =>
      Except.ok (if buf.text.length > 0
                 then fzfBaseArgs bin ++ ["-q ^" ++ buf.text]
                 else fzfBaseArgs bin)

/-- close_fzf_proc embeds the tail of every streaming invocation: close the
child's stdin, wait, read and strip its stdout, erase the renderer, and —
only when the stripped choice is truthy — overwrite the buffer text and
cursor. Returns the effect trace and the resulting buffer. -/
def close_fzf_proc (fzfOut : String) (buf : Buffer) : List Effect × Buffer :=
  let choice := pyStrip fzfOut
  if choice = "" then
    ([Effect.stdinClose, Effect.wait, Effect.rendererErase], buf)
  else
    ([Effect.stdinClose, Effect.wait, Effect.rendererErase,
      Effect.setText choice, Effect.setCursor choice.length],
     { text := choice, cursor_position := choice.length })

/-- fzf_insert_history embeds the history widget: spawn the streaming
child (the history dump written by `history_main` into the pipe is not
itself a selection-relevant observable here), then `close_fzf_proc`. -/
def fzf_insert_history (w : World) (buf : Buffer) (fzfOut : String) :
    Except String (List Effect × Buffer) :=
  match get_fzf_proc_args w buf with
  | Except.error e => Except.error e
  | Except.ok args =>
      let r := close_fzf_proc fzfOut buf
      Except.ok (Effect.popen args :: r.1, r.2)

/-- truthyCwds extracts, in order, the truthy `entry.get("cwd")` values of
the history entries (Python truthiness: `None` and `""` are skipped). -/
def truthyCwds : List (Option String) → List String
  | [] => []
  | Option.none :: rest => truthyCwds rest
  | Option.some c :: rest =>
      if c != "" then c :: truthyCwds rest else truthyCwds rest

/-- dirHistoryLoop embeds the write loop of `fzf_insert_dir_history` with
its `read` accumulator: each truthy cwd not yet seen is written once,
NUL-terminated. -/
def dirHistoryLoop : List (Option String) → List String → List String
  | [], _ => []
  | Option.none :: rest, read => dirHistoryLoop rest read
  | Option.some c :: rest, read =>
      if c != "" && !read.contains c then
        (c ++ "\x00") :: dirHistoryLoop rest (c :: read)
      else
        dirHistoryLoop rest read

/-- dirHistoryWrites is the sequence of strings the directory-history
widget writes to the child's stdin. -/
def dirHistoryWrites (entries : List (Option String)) : List String :=
  dirHistoryLoop entries []

/-- dirHistoryStream is the concatenated byte stream written to the
child's stdin. -/
def dirHistoryStream (entries : List (Option String)) : String :=
  String.join (dirHistoryWrites entries)

/-- fzf_insert_dir_history embeds the directory-history widget. `hist`
models `XSH.history` (`none` when absent) and its entries' `cwd` fields. -/
def fzf_insert_dir_history (w : World) (hist : Option (List (Option String)))
    (buf : Buffer) (fzfOut : String) : Except String (List Effect × Buffer) :=
  match hist with
  | Option.none => Except.ok ([], buf)
  | Option.some entries =>
      match get_fzf_proc_args w buf with
      | Except.error e => Except.error e
      | Except.ok args =>
          let r := close_fzf_proc fzfOut buf
          Except.ok (Effect.popen args ::
                      ((dirHistoryWrites entries).map Effect.stdinWrite ++ r.1),
                     r.2)

/-- rfindChar is the index of the last occurrence of `c`, as in Python's
`str.rfind` over the full string (`none` for Python's `-1`). -/
def rfindChar : List Char → Char → Option Nat
  | [], _ => Option.none
  | x :: xs, c =>
      match rfindChar xs c with
      | Option.some i => Option.some (i + 1)
      | Option.none => if x = c then Option.some 0 else Option.none

/-- tokenBeforeCursor embeds lines 93-97 of the source: the word after the
last space of the line before the cursor, provided the space is not the
final character; otherwise `none` (the Python `prefix` stays `None`). -/
def tokenBeforeCursor (bc : String) : Option String :=
  match rfindChar bc.toList ' ' with
  | Option.none => Option.none
  | Option.some i =>
      if i ≠ bc.length - 1 then Option.some (String.mk (bc.toList.drop (i + 1)))
      else Option.none

/-- fileCompletionInfo embeds lines 99-110 of the source: when the token
before the cursor is truthy and path completion yields exactly one match,
that match becomes `path`; when in addition its user-expansion is a
directory, the original cwd is saved and a `chdir` into it is emitted.
Result: (saved cwd, path, chdir effects). -/
def fileCompletionInfo (w : World) : Option String × String × List Effect :=
  match tokenBeforeCursor w.before_cursor with
  | Option.none => (Option.none, "", [])
  | Option.some p =>
      if p = "" then (Option.none, "", [])
      else
        match w.complete_path (w.normpath p) with
        | [q] =>
            let ep := w.expanduser q
            if w.isdir ep then (Option.some w.getcwd, q, [Effect.chdir ep])
            else (Option.none, q, [])
        | _ => (Option.none, "", [])

/-- ospath_join models `os.path.join` for POSIX paths. -/
def ospath_join (p c : String) : String :=
  if p = "" then c
  else if c.startsWith "/" then c
  else if p.endsWith "/" then p ++ c
  else p ++ "/" ++ c

/-- insertCommand embeds the quoting loop of lines 137-141: each line of
the stripped choice is stripped, joined onto `path`, single-quoted, and
the pieces are concatenated and stripped. -/
def insertCommand (choice path : String) : String :=
  pyStrip (String.join ((choice.splitOn "\n").map
    (fun c => "\x27" ++ ospath_join path (pyStrip c) ++ "\x27 ")))

/-- Buffer.deleteBeforeCursor models prompt-toolkit's
`delete_before_cursor(n)`. -/
def Buffer.deleteBeforeCursor (b : Buffer) (n : Nat) : Buffer :=
  let k := min n b.cursor_position
  { text := String.mk (b.text.toList.take (b.cursor_position - k) ++
                       b.text.toList.drop b.cursor_position),
    cursor_position := b.cursor_position - k }

/-- Buffer.insertText models prompt-toolkit's `insert_text(s)`. -/
def Buffer.insertText (b : Buffer) (s : String) : Buffer :=
  { text := String.mk (b.text.toList.take b.cursor_position ++ s.toList ++
                       b.text.toList.drop b.cursor_position),
    cursor_position := b.cursor_position + s.length }

/-- bufEffects is the buffer-mutation tail of `fzf_insert_file`: nothing
when the choice is empty; otherwise an optional delete of the token and
the insertion of the quoted command. -/
def bufEffects (choice path : String) (pfxLen : Nat) : List Effect :=
  if choice = "" then []
  else (if path = "" then [] else [Effect.deleteBeforeCursor pfxLen]) ++
       [Effect.insertText (insertCommand choice path)]

/-- applyChoice is the buffer value after `bufEffects`. -/
def applyChoice (buf : Buffer) (choice path : String) (pfxLen : Nat) : Buffer :=
  if choice = "" then buf
  else
    let b := if path = "" then buf else buf.deleteBeforeCursor pfxLen
    b.insertText (insertCommand choice path)

/-- applyEnvOverrides embeds lines 112-120 of the source. The source binds
`env = os.environ` — an alias of the parent mapping, not a copy — so the
mapping produced here is both the child's environment and the parent's
`os.environ` after the call. -/
def applyEnvOverrides (w : World) (dirs_only : Bool) : List (String × String) :=
  let env0 := w.osEnviron
  let env1 :=
    if dirs_only then
      if envContains w.xshEnv "fzf_find_dirs_command" then
        envSet env0 "FZF_DEFAULT_COMMAND" (envGetD w.xshEnv "fzf_find_dirs_command")
      else env0
    else
      if envContains w.xshEnv "fzf_find_command" then
        envSet env0 "FZF_DEFAULT_COMMAND" (envGetD w.xshEnv "fzf_find_command")
      else env0
  if envContains w.xshEnv "FZF_DEFAULT_OPTS" then
    envSet env1 "FZF_DEFAULT_OPTS" (envGetD w.xshEnv "FZF_DEFAULT_OPTS")
  else env1

/-- FileResult is the outcome of one `fzf_insert_file` invocation: its
effect trace, the resulting buffer, and `os.environ` as it stands after
the call returns (the source mutated it through the alias `env`). -/
structure FileResult where
  trace : List Effect
  buffer : Buffer
  environ : List (String × String)
  deriving DecidableEq

/-- fzf_insert_file embeds the file/dir insertion widget (lines 92-141):
optional chdir into a unique directory completion, environment-override
mutation, the blocking `subprocess.run` of the finder, restoration of the
saved cwd, renderer erase, and the buffer mutation. The binary lookup
happens inside the `subprocess.run` argument list, i.e. after the chdir
and the environment mutation; its failure propagates. -/
def fzf_insert_file (w : World) (dirs_only : Bool) : Except String FileResult :=
  let info := fileCompletionInfo w
  let savedCwd := info.1
  let path := info.2.1
  let chdirIn := info.2.2
  let pfxLen := match tokenBeforeCursor w.before_cursor with
                | Option.some p => p.length
                | Option.none => 0
  let env := applyEnvOverrides w dirs_only
  match get_fzf_binary_path w with
  | Except.error e => Except.error e
  | Except.ok bin =>
      let choice := pyStrip w.fzfStdout
      let chdirOut : List Effect :=
        match savedCwd with
        | Option.some c => [Effect.chdir c]
        | Option.none => []
      Except.ok
        { trace := chdirIn ++
            Effect.runProc [bin, "-m", "--reverse", "--height=40%"] env ::
            (chdirOut ++ Effect.rendererErase :: bufEffects choice path pfxLen),
          buffer := applyChoice w.buffer choice path pfxLen,
          environ := env }

/-- fzf_history is the keybinding handler registered for
`fzf_history_binding`; the source wraps `fzf_insert_history` with no
exception handling. -/
def fzf_history (w : World) (buf : Buffer) (fzfOut : String) :
    Except String (List Effect × Buffer) :=
  fzf_insert_history w buf fzfOut

/-- fzf_file is the keybinding handler registered for `fzf_file_binding`;
no exception handling. -/
def fzf_file (w : World) : Except String FileResult :=
  fzf_insert_file w false

/-- fzf_dir is the keybinding handler registered for `fzf_dir_binding`;
no exception handling. -/
def fzf_dir (w : World) : Except String FileResult :=
  fzf_insert_file w true

/-- fzf_dir_history is the keybinding handler registered for
`fzf_dir_history_binding`; no exception handling. -/
def fzf_dir_history (w : World) (hist : Option (List (Option String)))
    (buf : Buffer) (fzfOut : String) : Except String (List Effect × Buffer) :=
  fzf_insert_dir_history w hist buf fzfOut

/-- specDedupFirst is the specification-side first-occurrence
deduplication: keep each value where it first appears, drop its later
occurrences. Stated independently of the source's accumulator loop so the
loop can be proved to refine it. -/
def specDedupFirst : List String → List String
  | [] => []
  | x :: xs => x :: (specDedupFirst xs).filter (fun y => y != x)

/-- isBufferWrite marks the effects that apply a result to the buffer. -/
def isBufferWrite : Effect → Bool
  | Effect.setText _ => true
  | Effect.setCursor _ => true
  | Effect.deleteBeforeCursor _ => true
  | Effect.insertText _ => true
  | _ => false

/-- isChildExitPoint marks the effects at which the child process has
exited: the explicit `wait`, and the blocking `subprocess.run`. -/
def isChildExitPoint : Effect → Bool
  | Effect.wait => true
  | Effect.runProc _ _ => true
  | _ => false

/-- countErase counts the renderer-erase effects in a trace. -/
def countErase : List Effect → Nat
  | [] => 0
  | Effect.rendererErase :: t => countErase t + 1
  | _ :: t => countErase t

/-- beforeErase is the trace segment before the first renderer erase. -/
def beforeErase : List Effect → List Effect
  | [] => []
  | Effect.rendererErase :: _ => []
  | e :: t => e :: beforeErase t

/-- RedrawOnce states that a trace erases the renderer exactly once, that
no buffer write precedes the erase, and that the child has already exited
when the erase happens. -/
def RedrawOnce (t : List Effect) : Prop :=
  countErase t = 1 ∧
  (beforeErase t).all (fun e => !isBufferWrite e) = true ∧
  (beforeErase t).any isChildExitPoint = true

/-- runEnvs collects the environments passed to `subprocess.run` spawns in
a trace. -/
def runEnvs (t : List Effect) : List (List (String × String)) :=
  t.filterMap (fun e =>
    match e with
    | Effect.runProc _ env => Option.some env
    | _ => Option.none)

/-- isRunProc tests whether an optional trace entry is a
`subprocess.run` spawn. -/
def isRunProc : Option Effect → Bool
  | Option.some (Effect.runProc _ _) => true
  | _ => false

/-- cwdStep is the working-directory transition of one effect. -/
def cwdStep (d : String) (e : Effect) : String :=
  match e with
  | Effect.chdir x => x
  | _ => d

/-- finalCwd is the working directory after a trace, starting from
`start`: the last `chdir` wins. -/
def finalCwd (start : String) (t : List Effect) : String :=
  t.foldl cwdStep start

/-- baseWorld is a concrete world with nothing installed and nothing
configured: every `which` lookup captures empty output. -/
def baseWorld : World :=
  { xshEnv := [], osEnviron := [], run := fun _ => "",
    before_cursor := "", complete_path := fun _ => [],
    normpath := fun s => s, expanduser := fun s => s,
    isdir := fun _ => false, getcwd := "/", fzfStdout := "",
    buffer := { text := "", cursor_position := 0 } }

/-- exW1 is a world with finder-command and finder-options overrides
configured in the shell environment, an empty parent `os.environ`, and the
default binary resolvable. -/
def exW1 : World :=
  { baseWorld with
    xshEnv := [("fzf_find_command", "fd"), ("FZF_DEFAULT_OPTS", "--height=50%")],
    run := fun args => if args = ["which", "fzf"] then "/usr/bin/fzf" else "" }

/-- exR1 is the outcome of `fzf_insert_file exW1 false`. -/
def exR1 : FileResult :=
  { trace := [Effect.runProc ["/usr/bin/fzf", "-m", "--reverse", "--height=40%"]
                [("FZF_DEFAULT_COMMAND", "fd"), ("FZF_DEFAULT_OPTS", "--height=50%")],
              Effect.rendererErase],
    buffer := { text := "", cursor_position := 0 },
    environ := [("FZF_DEFAULT_COMMAND", "fd"), ("FZF_DEFAULT_OPTS", "--height=50%")] }

/-- exW2 is a world inside a multiplexer session in which the
multiplexer-aware variant `fzf-tmux` is resolvable on the search path but
nothing named `fzf_tmux_cmd` is. -/
def exW2 : World :=
  { baseWorld with
    xshEnv := [("TMUX", "1")],
    run := fun args =>
      if args = ["which", "fzf-tmux"] then "/usr/bin/fzf-tmux" else "" }

/-- exW7 is the spec's worked example: line `"cat fo"` before the cursor,
a single directory completion `"foo/"`, and no selection made. -/
def exW7 : World :=
  { baseWorld with
    before_cursor := "cat fo",
    complete_path := fun s => if s = "fo" then ["foo/"] else [],
    isdir := fun s => s == "foo/",
    getcwd := "/home/user",
    run := fun args => if args = ["which", "fzf"] then "/usr/bin/fzf" else "",
    buffer := { text := "cat fo", cursor_position := 6 } }

/-- exR7 is the outcome of `fzf_insert_file exW7 false`. -/
def exR7 : FileResult :=
  { trace := [Effect.chdir "foo/",
              Effect.runProc ["/usr/bin/fzf", "-m", "--reverse", "--height=40%"] [],
              Effect.chdir "/home/user",
              Effect.rendererErase],
    buffer := { text := "cat fo", cursor_position := 6 },
    environ := [] }

/-- exW9 is a world in which the default binary resolves and nothing else
is configured. -/
def exW9 : World :=
  { baseWorld with
    run := fun args => if args = ["which", "fzf"] then "/usr/bin/fzf" else "" }

end FzfWidgets

namespace FzfWidgets

theorem string_length_pos_iff (s : String) : 0 < s.length ↔ s ≠ "" := by
  cases s with
  | mk data =>
    constructor
    · intro h he
      have hd : data = [] := congrArg String.data he
      subst hd
      exact Nat.lt_irrefl 0 h
    · intro h
      have hd : data ≠ [] := by
        intro hd
        exact h (by rw [hd])
      exact List.length_pos.mpr hd

theorem isSome_envGet_of_contains (env : List (String × String)) (k : String)
    (h : envContains env k = true) : (envGet env k).isSome = true := by
  induction env with
  | nil => exact absurd h (by simp [envContains])
  | cons p rest ih =>
    by_cases hk : (p.1 == k) = true
    · simp [envGet, hk]
    · have hk' : (p.1 == k) = false := by simpa using hk
      simp only [envContains, hk', Bool.false_or] at h
      simp [envGet, hk', ih h]

theorem envGet_of_contains (env : List (String × String)) (k : String)
    (h : envContains env k = true) :
    envGet env k = Option.some (envGetD env k) := by
  have hs := isSome_envGet_of_contains env k h
  cases hv : envGet env k with
  | none => rw [hv] at hs; simp at hs
  | some v => simp [envGetD, hv]

theorem envGet_envSet (env : List (String × String)) (k v : String) :
    envGet (envSet env k v) k = Option.some v := by
  induction env with
  | nil => simp [envSet, envGet]
  | cons p rest ih =>
    by_cases hk : p.1 == k
    · simp [envSet, envGet, hk]
    · simp [envSet, envGet, hk, ih]

theorem envGet_envSet_ne (env : List (String × String)) (k v k' : String)
    (hne : k' ≠ k) : envGet (envSet env k v) k' = envGet env k' := by
  have hkk' : (k == k') = false := by
    rw [beq_eq_false_iff_ne]
    exact fun hh => hne hh.symm
  induction env with
  | nil => simp [envSet, envGet, hkk']
  | cons p rest ih =>
    by_cases hk : p.1 == k
    · have hp : (p.1 == k') = false := by
        rw [beq_eq_false_iff_ne]
        rw [beq_iff_eq] at hk
        rw [hk]
        exact fun hh => hne hh.symm
      simp [envSet, envGet, hk, hkk', hp, ih]
    · simp [envSet, envGet, hk, ih]

end FzfWidgets

namespace FzfWidgets

theorem applyEnvOverrides_opts (w : World) (d : Bool)
    (h : envContains w.xshEnv "FZF_DEFAULT_OPTS" = true) :
    envGet (applyEnvOverrides w d) "FZF_DEFAULT_OPTS" =
      envGet w.xshEnv "FZF_DEFAULT_OPTS" := by
  unfold applyEnvOverrides
  rw [h]
  simp only [if_true]
  rw [envGet_envSet]
  rw [envGet_of_contains w.xshEnv "FZF_DEFAULT_OPTS" h]

theorem applyEnvOverrides_command (w : World)
    (h : envContains w.xshEnv "fzf_find_command" = true) :
    envGet (applyEnvOverrides w false) "FZF_DEFAULT_COMMAND" =
      envGet w.xshEnv "fzf_find_command" := by
  unfold applyEnvOverrides
  simp only [Bool.false_eq_true, if_false, h, if_true]
  by_cases ho : envContains w.xshEnv "FZF_DEFAULT_OPTS" = true
  · rw [ho]
    simp only [if_true]
    rw [envGet_envSet_ne _ _ _ _ (by decide)]
    rw [envGet_envSet]
    rw [envGet_of_contains w.xshEnv "fzf_find_command" h]
  · have ho' : envContains w.xshEnv "FZF_DEFAULT_OPTS" = false := by simpa using ho
    rw [ho']
    simp only [Bool.false_eq_true, if_false]
    rw [envGet_envSet]
    rw [envGet_of_contains w.xshEnv "fzf_find_command" h]

theorem countErase_append (a b : List Effect) :
    countErase (a ++ b) = countErase a + countErase b := by
  induction a with
  | nil => simp [countErase]
  | cons e t ih => cases e <;> simp [countErase, ih] <;> omega

theorem beforeErase_append (a b : List Effect) (h : countErase a = 0) :
    beforeErase (a ++ b) = a ++ beforeErase b := by
  induction a with
  | nil => simp
  | cons e t ih =>
    cases e <;> simp only [countErase] at h <;>
      first
        | exact absurd h (by omega)
        | simp [beforeErase, ih h]

theorem countErase_bufEffects (choice path : String) (n : Nat) :
    countErase (bufEffects choice path n) = 0 := by
  unfold bufEffects
  by_cases h : choice = ""
  · simp [h, countErase]
  · by_cases hp : path = ""
    · simp [h, hp, countErase]
    · simp [h, hp, countErase]

theorem runEnvs_bufEffects (choice path : String) (n : Nat) :
    runEnvs (bufEffects choice path n) = [] := by
  unfold bufEffects
  by_cases h : choice = ""
  · simp [h, runEnvs]
  · by_cases hp : path = ""
    · simp [h, hp, runEnvs]
    · simp [h, hp, runEnvs]

theorem finalCwd_bufEffects (d : String) (choice path : String) (n : Nat) :
    finalCwd d (bufEffects choice path n) = d := by
  unfold bufEffects
  by_cases h : choice = ""
  · simp [h, finalCwd]
  · by_cases hp : path = ""
    · simp [h, hp, finalCwd, cwdStep]
    · simp [h, hp, finalCwd, cwdStep]

theorem fileCompletionInfo_shape (w : World) :
    ((fileCompletionInfo w).1 = Option.none ∧ (fileCompletionInfo w).2.2 = []) ∨
    (∃ x, (fileCompletionInfo w).1 = Option.some w.getcwd ∧
          (fileCompletionInfo w).2.2 = [Effect.chdir x]) := by
  unfold fileCompletionInfo
  cases tokenBeforeCursor w.before_cursor with
  | none => exact Or.inl ⟨by simp, by simp⟩
  | some p =>
    by_cases hp : p = ""
    · simp only [hp, if_true]
      exact Or.inl ⟨by simp, by simp⟩
    · simp only [hp, if_false]
      cases hq : w.complete_path (w.normpath p) with
      | nil => exact Or.inl ⟨by simp, by simp⟩
      | cons q qs =>
        cases qs with
        | nil =>
          by_cases hd : w.isdir (w.expanduser q) = true
          · simp only [hd, if_true]
            exact Or.inr ⟨w.expanduser q, by simp, by simp⟩
          · have hd' : w.isdir (w.expanduser q) = false := by simpa using hd
            simp only [hd', Bool.false_eq_true, if_false]
            exact Or.inl ⟨by simp, by simp⟩
        | cons q2 rest => exact Or.inl ⟨by simp, by simp⟩

end FzfWidgets

namespace FzfWidgets

theorem specDedupFirst_filter (p : String → Bool) (l : List String) :
    specDedupFirst (l.filter p) = (specDedupFirst l).filter p := by
  induction l with
  | nil => simp [specDedupFirst]
  | cons x xs ih =>
    by_cases hp : p x = true
    · rw [List.filter_cons_of_pos hp]
      rw [specDedupFirst, specDedupFirst]
      rw [ih]
      rw [List.filter_cons_of_pos hp]
      rw [List.filter_filter, List.filter_filter]
      congr 1
      apply List.filter_congr
      intro a _
      exact Bool.and_comm _ _
    · have hp' : p x = false := by simpa using hp
      rw [List.filter_cons_of_neg (by simp [hp'])]
      rw [ih]
      rw [specDedupFirst]
      rw [List.filter_cons_of_neg (by simp [hp'])]
      rw [List.filter_filter]
      apply List.filter_congr
      intro a _
      by_cases ha : a = x
      · subst ha
        simp [hp']
      · simp [ha]

theorem dirHistoryLoop_spec (entries : List (Option String)) :
    ∀ read : List String,
      dirHistoryLoop entries read =
        (specDedupFirst ((truthyCwds entries).filter (fun c => !read.contains c))).map
          (fun c => c ++ "\x00") := by
  induction entries with
  | nil => intro read; simp [dirHistoryLoop, truthyCwds, specDedupFirst]
  | cons e rest ih =>
    intro read
    cases e with
    | none => simp [dirHistoryLoop, truthyCwds, ih]
    | some c =>
      by_cases hc : (c != "") = true
      · by_cases hr : read.contains c = true
        · rw [dirHistoryLoop]
          rw [if_neg (by simp [hc, List.mem_of_elem_eq_true hr])]
          rw [truthyCwds, if_pos hc]
          rw [List.filter_cons_of_neg (by simp [List.mem_of_elem_eq_true hr])]
          exact ih read
        · have hr' : read.contains c = false := by simpa using hr
          have hnm : c ∉ read := by
            intro hm
            have ht : read.contains c = true := List.elem_eq_true_of_mem hm
            rw [ht] at hr'
            simp at hr'
          rw [dirHistoryLoop]
          rw [if_pos (by simp [hc, hnm])]
          rw [truthyCwds, if_pos hc]
          rw [List.filter_cons_of_pos (by simp [hnm])]
          rw [specDedupFirst]
          rw [List.map_cons]
          congr 1
          rw [ih (c :: read)]
          rw [← specDedupFirst_filter]
          rw [List.filter_filter]
          have hfc : List.filter (fun y => !(c :: read).contains y) (truthyCwds rest) =
              List.filter (fun a => a != c && !read.contains a) (truthyCwds rest) := by
            apply List.filter_congr
            intro a _
            simp only [List.contains_cons, Bool.not_or, bne]
          rw [hfc]
      · have hc' : (c != "") = false := by simpa using hc
        rw [dirHistoryLoop]
        rw [if_neg (by simp [hc'])]
        rw [truthyCwds, if_neg (by simp [hc'])]
        exact ih read

end FzfWidgets

namespace FzfWidgets

/-- Claim C4: in streaming mode, an empty trimmed captured output is
cancellation: buffer text and cursor are unchanged and no buffer-write
effect occurs, regardless of the child's exit status. -/
theorem C4_empty_choice_buffer_unchanged (out : String) (buf : Buffer)
    (h : pyStrip out = "") :
    (close_fzf_proc out buf).2 = buf ∧
    (close_fzf_proc out buf).1.all (fun e => !isBufferWrite e) = true := by
  simp [close_fzf_proc, h, isBufferWrite]

theorem C4_witness :
    pyStrip "  " = "" ∧
    ((close_fzf_proc "  " { text := "x", cursor_position := 1 }).2 =
        { text := "x", cursor_position := 1 } ∧
     (close_fzf_proc "  " { text := "x", cursor_position := 1 }).1.all
        (fun e => !isBufferWrite e) = true) :=
  ⟨by decide, C4_empty_choice_buffer_unchanged "  " { text := "x", cursor_position := 1 } (by decide)⟩

/-- Claim C5: when the trimmed captured output is a single non-empty
record, the buffer text becomes exactly that trimmed record and the
cursor moves to its end. -/
theorem C5_single_choice_sets_buffer (out : String) (buf : Buffer)
    (h1 : pyStrip out ≠ "") (h2 : (pyStrip out).toList.contains '\n' = false) :
    (close_fzf_proc out buf).2.text = pyStrip out ∧
    (close_fzf_proc out buf).2.cursor_position = (pyStrip out).length := by
  simp [close_fzf_proc, h1]

theorem C5_witness :
    pyStrip "foo\n" ≠ "" ∧
    (pyStrip "foo\n").toList.contains '\n' = false ∧
    ((close_fzf_proc "foo\n" { text := "x", cursor_position := 0 }).2.text =
        pyStrip "foo\n" ∧
     (close_fzf_proc "foo\n" { text := "x", cursor_position := 0 }).2.cursor_position =
        (pyStrip "foo\n").length) :=
  ⟨by decide, by decide,
   C5_single_choice_sets_buffer "foo\n" { text := "x", cursor_position := 0 }
     (by decide) (by decide)⟩

/-- Claim C9: a streaming-mode spawn receives the single extra argument
`"-q ^" ++ text` exactly when the buffer text is non-empty; with an empty
buffer the argument list is exactly the base list, with no query
argument. -/
theorem C9_query_arg_iff_nonempty_buffer (w : World) (buf : Buffer) (bin : String)
    (h : get_fzf_binary_path w = Except.ok bin) :
    (buf.text ≠ "" →
      get_fzf_proc_args w buf = Except.ok (fzfBaseArgs bin ++ ["-q ^" ++ buf.text])) ∧
    (buf.text = "" → get_fzf_proc_args w buf = Except.ok (fzfBaseArgs bin)) := by
  constructor
  · intro ht
    have hl : 0 < buf.text.length := (string_length_pos_iff buf.text).mpr ht
    unfold get_fzf_proc_args
    rw [h]
    simp [hl]
  · intro ht
    unfold get_fzf_proc_args
    rw [h]
    simp [ht]

theorem C9_witness :
    get_fzf_binary_path exW9 = Except.ok "/usr/bin/fzf" ∧
    get_fzf_proc_args exW9 { text := "ls", cursor_position := 2 } =
      Except.ok (fzfBaseArgs "/usr/bin/fzf" ++ ["-q ^" ++ "ls"]) ∧
    get_fzf_proc_args exW9 { text := "", cursor_position := 0 } =
      Except.ok (fzfBaseArgs "/usr/bin/fzf") :=
  ⟨rfl,
   (C9_query_arg_iff_nonempty_buffer exW9 { text := "ls", cursor_position := 2 }
      "/usr/bin/fzf" rfl).1 (by decide),
   (C9_query_arg_iff_nonempty_buffer exW9 { text := "", cursor_position := 0 }
      "/usr/bin/fzf" rfl).2 rfl⟩

/-- Claim C10: when the shell's history object is absent, the
directory-history action is a pure no-op: empty effect trace (no binary
resolution, no spawn — this holds even in worlds where binary resolution
would fail) and an unchanged buffer. -/
theorem C10_dir_history_noop_without_history (w : World) (buf : Buffer) (out : String) :
    fzf_insert_dir_history w Option.none buf out = Except.ok ([], buf) := rfl

/-- Claim C2: at a world where the multiplexer indicator TMUX is present
and the variant name `fzf-tmux` itself resolves on the search path, the
source still returns the default `"fzf"`, because it asks `which` about
the literal string `"fzf_tmux_cmd"` instead of the variant name. -/
theorem C2_tmux_variant_check_miswired :
    get_fzf_binary_name exW2 = "fzf" ∧
    envContains exW2.xshEnv "TMUX" = true ∧
    exW2.run ["which", "fzf-tmux"] = "/usr/bin/fzf-tmux" ∧
    exW2.run ["which", "fzf_tmux_cmd"] = "" := by
  refine ⟨?_, ?_, ?_, ?_⟩ <;> decide

/-- Claim C6: the directory-history widget writes exactly the
first-occurrence deduplication of the truthy cwd candidates, each
NUL-terminated, in order; on `["/a", "/b", "/a"]` the stream is
`"/a\x00/b\x00"` — two records, not three. -/
theorem C6_dir_history_first_occurrence_dedup :
    (∀ entries : List (Option String),
       dirHistoryWrites entries =
         (specDedupFirst (truthyCwds entries)).map (fun c => c ++ "\x00")) ∧
    dirHistoryStream [Option.some "/a", Option.some "/b", Option.some "/a"] =
      "/a\x00/b\x00" := by
  constructor
  · intro entries
    unfold dirHistoryWrites
    rw [dirHistoryLoop_spec entries []]
    have hf : (truthyCwds entries).filter (fun c => !([] : List String).contains c) =
        truthyCwds entries := by
      simp
    rw [hf]
  · decide

end FzfWidgets

namespace FzfWidgets

theorem runEnvs_append (a b : List Effect) :
    runEnvs (a ++ b) = runEnvs a ++ runEnvs b := by
  simp [runEnvs]

theorem runEnvs_cons_chdir (x : String) (t : List Effect) :
    runEnvs (Effect.chdir x :: t) = runEnvs t := rfl

theorem runEnvs_cons_runProc (args : List String) (env : List (String × String))
    (t : List Effect) : runEnvs (Effect.runProc args env :: t) = env :: runEnvs t := rfl

theorem runEnvs_cons_erase (t : List Effect) :
    runEnvs (Effect.rendererErase :: t) = runEnvs t := rfl

theorem RedrawOnce_shape (cIn cOut bufE : List Effect) (args : List String)
    (env : List (String × String))
    (hIn : cIn = [] ∨ ∃ x, cIn = [Effect.chdir x])
    (hOut : cOut = [] ∨ ∃ x, cOut = [Effect.chdir x])
    (hBuf : countErase bufE = 0) :
    RedrawOnce (cIn ++ Effect.runProc args env :: (cOut ++ Effect.rendererErase :: bufE)) := by
  rcases hIn with h | ⟨x, h⟩ <;> subst h <;>
    rcases hOut with h2 | ⟨y, h2⟩ <;> subst h2 <;>
    simp [RedrawOnce, countErase, beforeErase, isBufferWrite, isChildExitPoint, hBuf]

/-- Claim C8: after every child exit — selection, cancellation, or error —
the renderer is erased exactly once, no buffer write precedes the erase,
and the child has exited before the erase, in both the streaming tail
(`close_fzf_proc`) and the file-insertion widget (`fzf_insert_file`). -/
theorem C8_redraw_exactly_once :
    (∀ (out : String) (buf : Buffer), RedrawOnce (close_fzf_proc out buf).1) ∧
    (∀ (w : World) (d : Bool),
       match fzf_insert_file w d with
       | Except.ok r => RedrawOnce r.trace
       | Except.error _ => True) := by
  constructor
  · intro out buf
    unfold close_fzf_proc
    by_cases h : pyStrip out = ""
    · simp [h, RedrawOnce, countErase, beforeErase, isBufferWrite, isChildExitPoint]
    · simp [h, RedrawOnce, countErase, beforeErase, isBufferWrite, isChildExitPoint]
  · intro w d
    cases hb : get_fzf_binary_path w with
    | error e => simp [fzf_insert_file, hb]
    | ok bin =>
      simp only [fzf_insert_file, hb]
      rcases fileCompletionInfo_shape w with ⟨h1, h2⟩ | ⟨x, h1, h2⟩ <;>
        rw [h1, h2] <;>
        simp only [] <;>
        apply RedrawOnce_shape
      · exact Or.inl rfl
      · exact Or.inl rfl
      · exact countErase_bufEffects _ _ _
      · exact Or.inr ⟨x, rfl⟩
      · exact Or.inr ⟨w.getcwd, rfl⟩
      · exact countErase_bufEffects _ _ _

end FzfWidgets

namespace FzfWidgets

/-- Claim C3 counterexample: at a world where the finder binary does not
resolve, the registered history keybinding handler itself returns the
binary-not-found error — nothing at the handler boundary converts it to a
notice, so the error propagates out of the handler. -/
theorem C3_counterexample_error_escapes_handler :
    fzf_history baseWorld { text := "", cursor_position := 0 } "" =
      Except.error fzfNotFoundMsg := rfl

/-- Claim C3 (amended): no keybinding handler catches errors; whenever the
finder binary cannot be resolved, the binary-not-found error propagates
out of each registered handler (history, file, dir, and — when a history
object exists — dir-history). -/
theorem C3_amended_handlers_propagate (w : World) (buf : Buffer) (out : String)
    (entries : List (Option String))
    (h : w.run ["which", get_fzf_binary_name w] = "") :
    fzf_history w buf out = Except.error fzfNotFoundMsg ∧
    fzf_file w = Except.error fzfNotFoundMsg ∧
    fzf_dir w = Except.error fzfNotFoundMsg ∧
    fzf_dir_history w (Option.some entries) buf out =
      Except.error fzfNotFoundMsg := by
  have hb : get_fzf_binary_path w = Except.error fzfNotFoundMsg := by
    unfold get_fzf_binary_path
    rw [h]
    simp
  refine ⟨?_, ?_, ?_, ?_⟩
  · unfold fzf_history fzf_insert_history get_fzf_proc_args
    rw [hb]
  · unfold fzf_file fzf_insert_file
    rw [hb]
  · unfold fzf_dir fzf_insert_file
    rw [hb]
  · unfold fzf_dir_history fzf_insert_dir_history get_fzf_proc_args
    rw [hb]

theorem C3_amended_witness :
    baseWorld.run ["which", get_fzf_binary_name baseWorld] = "" ∧
    (fzf_history baseWorld { text := "", cursor_position := 0 } "x" =
        Except.error fzfNotFoundMsg ∧
     fzf_file baseWorld = Except.error fzfNotFoundMsg ∧
     fzf_dir baseWorld = Except.error fzfNotFoundMsg ∧
     fzf_dir_history baseWorld (Option.some [Option.some "/a"])
        { text := "", cursor_position := 0 } "x" = Except.error fzfNotFoundMsg) :=
  ⟨rfl, C3_amended_handlers_propagate baseWorld
    { text := "", cursor_position := 0 } "x" [Option.some "/a"] rfl⟩

/-- Claim C1 counterexample: with an override configured and an initially
empty parent environment, the environment mapping after the invocation —
the same object the source mutated through the alias `env = os.environ` —
is no longer empty: the parent's environment was changed, refuting the
claim that only a private copy is touched. -/
theorem C1_counterexample_parent_env_mutated :
    (fzf_insert_file exW1 false).map (fun r => r.environ) =
      Except.ok [("FZF_DEFAULT_COMMAND", "fd"), ("FZF_DEFAULT_OPTS", "--height=50%")] ∧
    exW1.osEnviron = [] ∧
    ([("FZF_DEFAULT_COMMAND", "fd"), ("FZF_DEFAULT_OPTS", "--height=50%")] :
        List (String × String)) ≠ [] :=
  ⟨rfl, rfl, by decide⟩

/-- Claim C1 (amended): the overrides are applied directly to the parent's
environment mapping (`env = os.environ` aliases, it does not copy): the
child is spawned with exactly the post-invocation parent environment, and
after the invocation the parent environment holds the override values. -/
theorem C1_amended_overrides_alias_parent_env (w : World) (d : Bool) (r : FileResult)
    (h : fzf_insert_file w d = Except.ok r) :
    runEnvs r.trace = [r.environ] ∧
    (envContains w.xshEnv "FZF_DEFAULT_OPTS" = true →
      envGet r.environ "FZF_DEFAULT_OPTS" = envGet w.xshEnv "FZF_DEFAULT_OPTS") ∧
    (d = false → envContains w.xshEnv "fzf_find_command" = true →
      envGet r.environ "FZF_DEFAULT_COMMAND" = envGet w.xshEnv "fzf_find_command") := by
  cases hb : get_fzf_binary_path w with
  | error e =>
    simp only [fzf_insert_file, hb] at h
    exact absurd h (by simp)
  | ok bin =>
    simp only [fzf_insert_file, hb] at h
    injection h with h
    subst h
    refine ⟨?_, ?_, ?_⟩
    · rcases fileCompletionInfo_shape w with ⟨h1, h2⟩ | ⟨x, h1, h2⟩ <;>
        rw [h1, h2] <;>
        simp [runEnvs_append, runEnvs_cons_chdir, runEnvs_cons_runProc, runEnvs_cons_erase, runEnvs_bufEffects]
    · intro ho
      exact applyEnvOverrides_opts w d ho
    · intro hd hc
      subst hd
      exact applyEnvOverrides_command w hc

theorem C1_amended_witness :
    fzf_insert_file exW1 false = Except.ok exR1 ∧
    (runEnvs exR1.trace = [exR1.environ] ∧
     envGet exR1.environ "FZF_DEFAULT_OPTS" = envGet exW1.xshEnv "FZF_DEFAULT_OPTS" ∧
     envGet exR1.environ "FZF_DEFAULT_COMMAND" = envGet exW1.xshEnv "fzf_find_command") :=
  ⟨rfl,
   (C1_amended_overrides_alias_parent_env exW1 false exR1 rfl).1,
   (C1_amended_overrides_alias_parent_env exW1 false exR1 rfl).2.1 rfl,
   (C1_amended_overrides_alias_parent_env exW1 false exR1 rfl).2.2 rfl rfl⟩

/-- Claim C7: when the token before the cursor has exactly one path
completion and that completion expands to a directory, the file-insertion
widget first changes into that directory, spawns the finder there, changes
back to the original working directory, and only then erases the renderer
— so the working directory after the whole trace equals the original one,
whether or not a choice was made. -/
theorem C7_cwd_changed_and_restored (w : World) (d : Bool) (p q : String) (r : FileResult)
    (h1 : tokenBeforeCursor w.before_cursor = Option.some p) (h2 : p ≠ "")
    (h3 : w.complete_path (w.normpath p) = [q])
    (h4 : w.isdir (w.expanduser q) = true)
    (h5 : fzf_insert_file w d = Except.ok r) :
    r.trace[0]? = Option.some (Effect.chdir (w.expanduser q)) ∧
    isRunProc r.trace[1]? = true ∧
    r.trace[2]? = Option.some (Effect.chdir w.getcwd) ∧
    r.trace[3]? = Option.some Effect.rendererErase ∧
    finalCwd w.getcwd r.trace = w.getcwd := by
  have hinfo : fileCompletionInfo w =
      (Option.some w.getcwd, q, [Effect.chdir (w.expanduser q)]) := by
    unfold fileCompletionInfo
    rw [h1]
    simp [h2, h3, h4]
  cases hb : get_fzf_binary_path w with
  | error e =>
    simp only [fzf_insert_file, hb] at h5
    exact absurd h5 (by simp)
  | ok bin =>
    simp only [fzf_insert_file, hinfo, hb] at h5
    injection h5 with h5
    subst h5
    refine ⟨by simp, by simp [isRunProc], by simp, by simp, ?_⟩
    have htail := finalCwd_bufEffects w.getcwd (pyStrip w.fzfStdout) q
      (match tokenBeforeCursor w.before_cursor with
       | Option.some p => p.length
       | Option.none => 0)
    simp only [finalCwd] at htail ⊢
    simp [cwdStep, htail]

theorem C7_witness :
    tokenBeforeCursor exW7.before_cursor = Option.some "fo" ∧
    exW7.complete_path (exW7.normpath "fo") = ["foo/"] ∧
    exW7.isdir (exW7.expanduser "foo/") = true ∧
    fzf_insert_file exW7 false = Except.ok exR7 ∧
    (exR7.trace[0]? = Option.some (Effect.chdir (exW7.expanduser "foo/")) ∧
     isRunProc exR7.trace[1]? = true ∧
     exR7.trace[2]? = Option.some (Effect.chdir exW7.getcwd) ∧
     exR7.trace[3]? = Option.some Effect.rendererErase ∧
     finalCwd exW7.getcwd exR7.trace = exW7.getcwd) :=
  ⟨rfl, rfl, rfl, rfl,
   C7_cwd_changed_and_restored exW7 false "fo" "foo/" exR7 rfl (by decide) rfl rfl rfl⟩

end FzfWidgets
